import Mathlib

/-!
Verification of the Hero Squad Optimizer encounter-outcome estimation engine.

The embedding follows src/app/api/analyze/route.ts (the Strategy C pipeline:
Naive-Bayes base, synergy and diminishing-returns modifiers, weighted
individual rates, action recommender and recommendation narrator) and the
Strategy A weighted-sum revision of the same analysis found in the
repository's earlier route file.

Modelling conventions:
  * JavaScript numbers are modelled as exact rationals (`ℚ`).
  * `Math.round x` is modelled as `⌊x + 1/2⌋ : ℤ` (its behaviour on the
    non-negative values that arise here).
  * Optional stats (`mana?`, `dexterity?`, `wisdom?`) are `Option ℚ`;
    the source's `c.mana || 0` reads become `Option.getD 0` (identical on
    numbers, since `0 || 0 = 0`).
  * The source accumulates log-probabilities and exponentiates at the end;
    over exact arithmetic `exp (log a + log b) = a * b`, so the Bayesian
    layer is embedded multiplicatively.
  * `party.reduce(f)` with no initial value throws a `TypeError` on an
    empty array; the narrator's `findBest` is therefore embedded as an
    `Option`-returning function, `none` standing for the thrown exception,
    and the exception propagates through the analysis as `none`.
-/

namespace HeroSquad

/-- A party member as received by the analysis route: name, class string and
six numeric attributes, three of them optional. -/
structure Character where
  name : String
  type : String
  strength : ℚ
  agility : ℚ
  health : ℚ
  mana : Option ℚ
  dexterity : Option ℚ
  wisdom : Option ℚ
  deriving DecidableEq, Repr

/-- The enemy sub-entity of an encounter. -/
structure Enemy where
  name : String
  health : ℚ
  deriving DecidableEq, Repr

/-- An encounter descriptor: the event type string plus its enemy. -/
structure Encounter where
  event_type : String
  enemy : Enemy
  deriving DecidableEq, Repr

/-- Per-encounter priors P(success), P(failure) (`getSuccessPriors`). -/
structure SuccessPriors where
  success : ℚ
  failure : ℚ
  deriving DecidableEq, Repr

def getSuccessPriors (eventType : String) : SuccessPriors :=
  if eventType = "Dragon Fight" then ⟨0.4, 0.6⟩
  else if eventType = "Ancient Trap" then ⟨0.55, 0.45⟩
  else if eventType = "Mystic Puzzle" then ⟨0.7, 0.3⟩
  else ⟨0.5, 0.5⟩

/-- The bucketing of a stat value used by the Bayes layer
(`getStatCategory`): low below 10, med below 20, high from 20 up. -/
inductive StatBucket
  | low
  | med
  | high
  deriving DecidableEq, Repr

def getStatCategory (value : ℚ) : StatBucket :=
  if value < 10 then .low
  else if value < 20 then .med
  else .high

/-- A probability per bucket (one row of the likelihood table). -/
structure BucketProbs where
  low : ℚ
  med : ℚ
  high : ℚ
  deriving DecidableEq, Repr

def BucketProbs.get (p : BucketProbs) : StatBucket → ℚ
  | .low => p.low
  | .med => p.med
  | .high => p.high

/-- Success-side and failure-side bucket probabilities for one stat. -/
structure StatLikelihood where
  success : BucketProbs
  failure : BucketProbs
  deriving DecidableEq, Repr

/-- The per-stat likelihood table of `getLikelihoods`. -/
structure Likelihoods where
  strength : StatLikelihood
  agility : StatLikelihood
  health : StatLikelihood
  mana : StatLikelihood
  dexterity : StatLikelihood
  wisdom : StatLikelihood
  deriving DecidableEq, Repr

def defaultStatLikelihood : StatLikelihood :=
  ⟨⟨0.2, 0.4, 0.4⟩, ⟨0.4, 0.4, 0.2⟩⟩

def defaultLikelihoods : Likelihoods :=
  ⟨defaultStatLikelihood, defaultStatLikelihood, defaultStatLikelihood,
   defaultStatLikelihood, defaultStatLikelihood, defaultStatLikelihood⟩

def getLikelihoods (eventType : String) : Likelihoods :=
  if eventType = "Dragon Fight" then
    { defaultLikelihoods with
      strength := ⟨⟨0.1, 0.3, 0.6⟩, ⟨0.6, 0.3, 0.1⟩⟩
      health := ⟨⟨0.15, 0.35, 0.5⟩, ⟨0.5, 0.35, 0.15⟩⟩
      agility := ⟨⟨0.2, 0.5, 0.3⟩, ⟨0.3, 0.5, 0.2⟩⟩ }
  else if eventType = "Ancient Trap" then
    { defaultLikelihoods with
      dexterity := ⟨⟨0.1, 0.3, 0.6⟩, ⟨0.6, 0.3, 0.1⟩⟩
      agility := ⟨⟨0.15, 0.35, 0.5⟩, ⟨0.5, 0.35, 0.15⟩⟩
      wisdom := ⟨⟨0.2, 0.5, 0.3⟩, ⟨0.3, 0.5, 0.2⟩⟩ }
  else if eventType = "Mystic Puzzle" then
    { defaultLikelihoods with
      wisdom := ⟨⟨0.05, 0.25, 0.7⟩, ⟨0.7, 0.25, 0.05⟩⟩
      mana := ⟨⟨0.1, 0.4, 0.5⟩, ⟨0.5, 0.4, 0.1⟩⟩ }
  else defaultLikelihoods

/-- Laplace-smoothed likelihood factor of one present stat on one side
(the `+ 0.01` of `runBayesianAnalysis`). -/
def statFactor (sl : StatLikelihood) (side : StatLikelihood → BucketProbs) (v : ℚ) : ℚ :=
  (side sl).get (getStatCategory v) + 0.01

/-- An absent optional stat is skipped by the `Object.keys` loop of
`runBayesianAnalysis`, contributing no factor (a factor of 1). -/
def optStatFactor (sl : StatLikelihood) (side : StatLikelihood → BucketProbs) : Option ℚ → ℚ
  | none => 1
  | some v => statFactor sl side v

/-- Product of the likelihood factors one character contributes on one side:
the three required stats always, the optional ones only when present. -/
def charFactor (lk : Likelihoods) (side : StatLikelihood → BucketProbs) (c : Character) : ℚ :=
  statFactor lk.strength side c.strength *
  statFactor lk.agility side c.agility *
  statFactor lk.health side c.health *
  optStatFactor lk.mana side c.mana *
  optStatFactor lk.dexterity side c.dexterity *
  optStatFactor lk.wisdom side c.wisdom

/-- `runBayesianAnalysis`: priors scaled by the party-size multiplier
(success multiplied, failure divided), one likelihood factor per present
numeric stat per character, result normalised to a percent. -/
def runBayesianAnalysis (party : List Character) (encounter : Encounter) : ℚ :=
  let basePriors := getSuccessPriors encounter.event_type
  let likelihoods := getLikelihoods encounter.event_type
  let partySizeMultiplier : ℚ := 0.8 + 0.1 * party.length
  let priorSuccess := basePriors.success * partySizeMultiplier
  let priorFailure := basePriors.failure / partySizeMultiplier
  let probSuccess :=
    priorSuccess * (party.map (charFactor likelihoods StatLikelihood.success)).prod
  let probFailure :=
    priorFailure * (party.map (charFactor likelihoods StatLikelihood.failure)).prod
  let totalProb := probSuccess + probFailure
  if totalProb = 0 then 50 else probSuccess / totalProb * 100

/-- `Set.has` on the party's class strings (`partyClasses.has(t)`). -/
def hasClass (party : List Character) (t : String) : Bool :=
  party.any (fun c => c.type == t)

/-- `getSynergyMultiplier`: the five composition-dependent adjustments to a
starting multiplier of 1.0. -/
def getSynergyMultiplier (party : List Character) (encounter : Encounter) : ℚ :=
  let hasBarbarian := hasClass party "Barbarian"
  let hasMage := hasClass party "Mage"
  let hasRogue := hasClass party "Rogue"
  let hasBandit := hasClass party "Bandit"
  let m1 : ℚ := 1
  let m2 := if hasBarbarian && hasMage then m1 + 0.1 else m1
  let m3 := if hasBarbarian && hasMage && hasRogue then m2 + 0.15 else m2
  let m4 :=
    if encounter.event_type == "Ancient Trap" && hasRogue && hasBandit then
      m3 + 0.2
    else m3
  let m5 :=
    if encounter.event_type == "Dragon Fight" && party.all (fun c => c.type == "Mage") then
      m4 - 0.25
    else m4
  let m6 :=
    if encounter.event_type == "Mystic Puzzle" &&
        party.all (fun c => c.type == "Barbarian" || c.type == "Bandit") then
      m5 - 0.3
    else m5
  m6

/-- Penalty of a single present stat in `applyDiminishingReturns`; the
source guard `value && value > 22` reduces to `value > 22` over rationals
(a value above 22 is in particular truthy). -/
def statPenalty (v : ℚ) : ℚ :=
  if 22 < v then (v - 22) * 0.005 else 0

/-- An absent optional stat is `undefined`, falsy, hence no penalty. -/
def optStatPenalty : Option ℚ → ℚ
  | none => 0
  | some v => statPenalty v

def charPenalty (c : Character) : ℚ :=
  statPenalty c.strength + statPenalty c.agility + statPenalty c.health +
  optStatPenalty c.mana + optStatPenalty c.dexterity + optStatPenalty c.wisdom

/-- `applyDiminishingReturns`: total over-threshold penalty, capped at 0.3. -/
def applyDiminishingReturns (chance : ℚ) (party : List Character) : ℚ :=
  let totalPenalty := (party.map charPenalty).sum
  chance * (1 - min 0.3 totalPenalty)

/-- `Math.round` on the non-negative values produced by this code. -/
def jsRound (x : ℚ) : ℤ := ⌊x + 1 / 2⌋

/-- `applyAdvancedModifiers`: synergy multiplier, diminishing returns, then
clamp to [5, 95] and round. -/
def applyAdvancedModifiers (baseChance : ℚ) (party : List Character)
    (encounter : Encounter) : ℤ :=
  let modified := baseChance * getSynergyMultiplier party encounter
  let modified2 := applyDiminishingReturns modified party
  jsRound (max 5 (min 95 modified2))

/-- The per-encounter stat-weight table (`getStatWeights`). -/
structure StatWeights where
  strength : ℚ
  agility : ℚ
  health : ℚ
  mana : ℚ
  dexterity : ℚ
  wisdom : ℚ
  deriving DecidableEq, Repr

def getStatWeights (eventType : String) : StatWeights :=
  if eventType = "Dragon Fight" then
    { strength := 1.3, health := 1.2, agility := 1.1,
      mana := 1.1, dexterity := 1.0, wisdom := 0.9 }
  else if eventType = "Ancient Trap" then
    { dexterity := 1.4, agility := 1.3, wisdom := 1.2,
      health := 1.0, mana := 0.9, strength := 0.8 }
  else if eventType = "Mystic Puzzle" then
    { wisdom := 1.5, mana := 1.3, dexterity := 1.0,
      agility := 0.9, health := 0.8, strength := 0.7 }
  else
    { strength := 1.0, agility := 1.0, health := 1.0,
      mana := 1.0, dexterity := 1.0, wisdom := 1.0 }

/-- `Object.values(weights).reduce((sum, w) => sum + w, 0)`. -/
def totalWeightOf (w : StatWeights) : ℚ :=
  w.strength + w.agility + w.health + w.mana + w.dexterity + w.wisdom

/-- One character's weighted power: the six attributes scaled by the weight
table, absent optional stats reading as 0 (`character.mana || 0`). -/
def charPower (w : StatWeights) (c : Character) : ℚ :=
  c.strength * w.strength + c.agility * w.agility + c.health * w.health +
  c.mana.getD 0 * w.mana + c.dexterity.getD 0 * w.dexterity +
  c.wisdom.getD 0 * w.wisdom

def getDifficultyMultiplier (eventType : String) : ℚ :=
  if eventType = "Dragon Fight" then 0.85
  else if eventType = "Ancient Trap" then 0.9
  else if eventType = "Mystic Puzzle" then 1.0
  else 0.95

def getEncounterDifficulty (eventType : String) : String :=
  if eventType = "Dragon Fight" then "Hard"
  else if eventType = "Ancient Trap" then "Medium"
  else if eventType = "Mystic Puzzle" then "Easy"
  else "Unknown"

/-- `getRecommendedAction`: fixed-priority decision tree per event type,
absent optional stats reading as 0. -/
def getRecommendedAction (character : Character) (eventType : String) : String :=
  let str := character.strength
  let agi := character.agility
  let dex := character.dexterity.getD 0
  let wis := character.wisdom.getD 0
  let mana := character.mana.getD 0
  if eventType = "Dragon Fight" then
    if 15 < str then "Power Attack"
    else if 15 < mana then "Cast Fireball"
    else if 15 < agi then "Dodge and Weave"
    else "Defensive Stance"
  else if eventType = "Ancient Trap" then
    if 15 < dex then "Disarm Trap"
    else if 15 < wis then "Analyze Mechanism"
    else if 15 < agi then "Evade Pressure Plate"
    else "Provide Lookout"
  else if eventType = "Mystic Puzzle" then
    if 15 < wis then "Decipher Runes"
    else if 15 < mana then "Channel Insight"
    else if 10 < dex then "Manipulate Artifact"
    else "Observe Patterns"
  else "Take Action"

/-- One entry of `individual_success_rates`. -/
structure IndividualRate where
  character : String
  success_rate : ℤ
  recommended_action : String
  deriving DecidableEq, Repr

/-- The `party.map` of `getWeightedAnalysis`: per-character weighted rate,
clamped to [15, 95] and rounded, plus the recommended action. -/
def individualRates (party : List Character) (encounter : Encounter) :
    List IndividualRate :=
  let weights := getStatWeights encounter.event_type
  let totalWeight := totalWeightOf weights
  let difficultyMultiplier := getDifficultyMultiplier encounter.event_type
  party.map (fun character =>
    let charTotalWeighted := charPower weights character
    let charBaseRate := charTotalWeighted / (totalWeight * 15)
    let charSuccessRate := min 95 (max 15 (20 + charBaseRate * 75 * difficultyMultiplier))
    { character := character.name
      success_rate := jsRound charSuccessRate
      recommended_action := getRecommendedAction character encounter.event_type })

/-- `findBest` of `generateRecommendations`: `party.reduce` keeping the
strictly better character, the earlier one on ties. `none` models the
`TypeError` that `reduce` with no initial value throws on an empty array. -/
def findBest (party : List Character) (f : Character → ℚ) : Option Character :=
  match party with
  | [] => none
  | best :: rest => some (rest.foldl (fun best c => if f best < f c then c else best) best)

def cautionTone : String :=
  "This is a highly challenging encounter. Survival should be the top priority; focus on defensive abilities and healing."

def aggressiveTone : String :=
  "Your party has a clear advantage. A coordinated, aggressive strategy should secure a swift victory."

def balancedTone : String :=
  "The odds are balanced. A smart, tactical approach combining offense and defense is crucial for success."

def dragonTankLine (n : String) : String :=
  "Let " ++ n ++ " draw the dragon\x27s attention while others attack from the flanks."

def dragonDamageLine (n : String) : String :=
  n ++ " should focus on dealing maximum physical damage."

def trapLeadLine (n : String) : String :=
  n ++ " should take the lead to scout for and disarm any traps."

def trapSupportLine (n : String) : String :=
  n ++ " can assist by spotting the trap mechanisms from a distance."

def puzzleWisdomLine (n : String) : String :=
  "The party should rely on " ++ n ++ "\x27s wisdom to solve the core puzzle."

def puzzleManaLine (n : String) : String :=
  n ++ " could use their mana to reveal hidden clues or magical auras."

/-- `generateRecommendations`: one tone sentence chosen by the success
chance, then encounter-specific sentences naming the best-stat characters.
`none` models the exception thrown by `findBest` on an empty party. -/
def generateRecommendations (party : List Character) (encounter : Encounter)
    (successChance : ℚ) : Option (List String) :=
  let tone :=
    if successChance < 40 then cautionTone
    else if 75 < successChance then aggressiveTone
    else balancedTone
  if encounter.event_type = "Dragon Fight" then
    match findBest party (fun c => c.health), findBest party (fun c => c.strength) with
    | some tank, some strongest =>
        some [tone, dragonTankLine tank.name, dragonDamageLine strongest.name]
    | _, _ => none
  else if encounter.event_type = "Ancient Trap" then
    match findBest party (fun c => c.dexterity.getD 0),
        findBest party (fun c => c.wisdom.getD 0) with
    | some nimble, some wiseTrap =>
        some ([tone, trapLeadLine nimble.name] ++
          if wiseTrap.name = nimble.name then [] else [trapSupportLine wiseTrap.name])
    | _, _ => none
  else if encounter.event_type = "Mystic Puzzle" then
    match findBest party (fun c => c.wisdom.getD 0),
        findBest party (fun c => c.mana.getD 0) with
    | some wise, some mage =>
        some ([tone, puzzleWisdomLine wise.name] ++
          if mage.name = wise.name then [] else [puzzleManaLine mage.name])
    | _, _ => none
  else some [tone]

/-- `getWeightedAnalysis`: individual rates paired with the narrator's
recommendations; an exception in the narrator propagates. -/
def getWeightedAnalysis (party : List Character) (encounter : Encounter)
    (partySuccessChance : ℚ) : Option (List IndividualRate × List String) :=
  match generateRecommendations party encounter partySuccessChance with
  | none => none
  | some recs => some (individualRates party encounter, recs)

/-- The response object of the analysis facade. -/
structure AnalysisResult where
  party_success_chance : ℤ
  individual_success_rates : List IndividualRate
  encounter_difficulty : String
  strategic_recommendations : List String
  deriving DecidableEq, Repr

/-- `analyzePartyVsEncounter` (Strategy C pipeline): Bayes base, advanced
modifiers, then rates, difficulty label and recommendations. -/
def analyzePartyVsEncounter (party : List Character) (encounter : Encounter) :
    Option AnalysisResult :=
  let baseSuccessChance := runBayesianAnalysis party encounter
  let finalSuccessChance := applyAdvancedModifiers baseSuccessChance party encounter
  match getWeightedAnalysis party encounter (finalSuccessChance : ℚ) with
  | none => none
  | some wa =>
      some { party_success_chance := finalSuccessChance
             individual_success_rates := wa.1
             encounter_difficulty := getEncounterDifficulty encounter.event_type
             strategic_recommendations := wa.2 }

namespace StrategyA

/-- The weighted-sum revision's party-level estimate: party weighted power
normalised by partySize × totalWeight × 20, scaled to percent, clamped to
[15, 95], multiplied by the difficulty multiplier and rounded. Its
per-character rates and narrator are the same code as the Strategy C
pipeline's `individualRates` and `generateRecommendations`. -/
def partySuccessChance (party : List Character) (encounter : Encounter) : ℤ :=
  let weights := getStatWeights encounter.event_type
  let totalWeight := totalWeightOf weights
  let totalWeightedPower := (party.map (charPower weights)).sum
  let partySize : ℚ := party.length
  let baseSuccessRate :=
    min 95 (max 15 (totalWeightedPower / (partySize * totalWeight * 20) * 100))
  jsRound (baseSuccessRate * getDifficultyMultiplier encounter.event_type)

end StrategyA

/-! ### Spec-side characterisations

Definitions below follow the specification's words, to be compared with the
definitions embedded from the source. -/

/-- Spec-side clamp: `clamp(x, lo, hi)`. -/
def specClamp (lo hi x : ℚ) : ℚ := max lo (min hi x)

/-- Spec-side weighted power: `Σ(attribute × weight)` over the six
attributes, absent optional stats treated as 0. -/
def specWeightedPower (c : Character) (w : StatWeights) : ℚ :=
  c.strength * w.strength + c.agility * w.agility + c.health * w.health +
  c.mana.getD 0 * w.mana + c.dexterity.getD 0 * w.dexterity +
  c.wisdom.getD 0 * w.wisdom

/-- Spec-side individual rate:
`round(clamp(20 + (weighted_power / (total_weight × 15)) × 75 × difficultyMultiplier, 15, 95))`. -/
def specSuccessRate (c : Character) (eventType : String) : ℤ :=
  let w := getStatWeights eventType
  jsRound (specClamp 15 95
    (20 + specWeightedPower c w / (totalWeightOf w * 15) * 75 *
      getDifficultyMultiplier eventType))

/-- Spec-side action recommender: the fixed-priority decision tree. -/
def specRecommendedAction (character : Character) (eventType : String) : String :=
  if eventType = "Dragon Fight" then
    if character.strength > 15 then "Power Attack"
    else if character.mana.getD 0 > 15 then "Cast Fireball"
    else if character.agility > 15 then "Dodge and Weave"
    else "Defensive Stance"
  else if eventType = "Ancient Trap" then
    if character.dexterity.getD 0 > 15 then "Disarm Trap"
    else if character.wisdom.getD 0 > 15 then "Analyze Mechanism"
    else if character.agility > 15 then "Evade Pressure Plate"
    else "Provide Lookout"
  else if eventType = "Mystic Puzzle" then
    if character.wisdom.getD 0 > 15 then "Decipher Runes"
    else if character.mana.getD 0 > 15 then "Channel Insight"
    else if character.dexterity.getD 0 > 10 then "Manipulate Artifact"
    else "Observe Patterns"
  else "Take Action"

/-- Spec-side synergy multiplier: 1.0 plus the five composition bonuses
and penalties, written as independent additive adjustments. -/
def specSynergyMultiplier (party : List Character) (encounter : Encounter) : ℚ :=
  1
  + (if (∃ c ∈ party, c.type = "Barbarian") ∧ (∃ c ∈ party, c.type = "Mage")
      then 0.1 else 0)
  + (if (∃ c ∈ party, c.type = "Barbarian") ∧ (∃ c ∈ party, c.type = "Mage") ∧
        (∃ c ∈ party, c.type = "Rogue")
      then 0.15 else 0)
  + (if encounter.event_type = "Ancient Trap" ∧ (∃ c ∈ party, c.type = "Rogue") ∧
        (∃ c ∈ party, c.type = "Bandit")
      then 0.2 else 0)
  - (if encounter.event_type = "Dragon Fight" ∧ ∀ c ∈ party, c.type = "Mage"
      then 0.25 else 0)
  - (if encounter.event_type = "Mystic Puzzle" ∧
        ∀ c ∈ party, c.type = "Barbarian" ∨ c.type = "Bandit"
      then 0.3 else 0)

/-- Spec-side tone sentence: the three-tier threshold on the success chance. -/
def toneSentence (successChance : ℚ) : String :=
  if successChance < 40 then cautionTone
  else if 75 < successChance then aggressiveTone
  else balancedTone

/-- Spec-side narrator tail: the encounter-specific sentences naming the
best-stat characters, the second one only when it names a different
character. -/
def narratorTail (party : List Character) (encounter : Encounter) : List String :=
  if encounter.event_type = "Dragon Fight" then
    match findBest party (fun c => c.health), findBest party (fun c => c.strength) with
    | some tank, some strongest =>
        [dragonTankLine tank.name, dragonDamageLine strongest.name]
    | _, _ => []
  else if encounter.event_type = "Ancient Trap" then
    match findBest party (fun c => c.dexterity.getD 0),
        findBest party (fun c => c.wisdom.getD 0) with
    | some nimble, some wiseTrap =>
        trapLeadLine nimble.name ::
          (if wiseTrap.name = nimble.name then [] else [trapSupportLine wiseTrap.name])
    | _, _ => []
  else if encounter.event_type = "Mystic Puzzle" then
    match findBest party (fun c => c.wisdom.getD 0),
        findBest party (fun c => c.mana.getD 0) with
    | some wise, some mage =>
        puzzleWisdomLine wise.name ::
          (if mage.name = wise.name then [] else [puzzleManaLine mage.name])
    | _, _ => []
  else []

/-! ### Sample data used in witnesses and counterexamples -/

/-- Spec scenario 1: a single Barbarian (str 25, agi 10, mana 5, dex 10,
wis 5, hp 25). -/
def scenarioBarbarian : Character :=
  ⟨"Barbarian", "Barbarian", 25, 10, 25, some 5, some 10, some 5⟩

/-- A Barbarian with every stat at 1 (all buckets low). -/
def weakBarbarian : Character :=
  ⟨"Grok", "Barbarian", 1, 1, 1, some 1, some 1, some 1⟩

/-- A Mage with mana absent. -/
def mageNoMana : Character := ⟨"Elara", "Mage", 12, 12, 12, none, none, none⟩

/-- The same Mage with mana present and equal to 0. -/
def mageZeroMana : Character := ⟨"Elara", "Mage", 12, 12, 12, some 0, none, none⟩

def dragonEncounter : Encounter := ⟨"Dragon Fight", ⟨"Dragon", 100⟩⟩

def puzzleEncounter : Encounter := ⟨"Mystic Puzzle", ⟨"Sphinx", 50⟩⟩

def goblinEncounter : Encounter := ⟨"Goblin Ambush", ⟨"Goblin", 10⟩⟩

/-! ### Helper lemmas -/

theorem jsRound_le {x : ℚ} {b : ℤ} (h : x ≤ b) : jsRound x ≤ b := by
  unfold jsRound
  rw [← Int.lt_add_one_iff, Int.floor_lt]
  push_cast
  linarith

theorem le_jsRound {a : ℤ} {x : ℚ} (h : (a : ℚ) ≤ x) : a ≤ jsRound x := by
  unfold jsRound
  rw [Int.le_floor]
  linarith

theorem findBest_isSome {party : List Character} (f : Character → ℚ)
    (h : party ≠ []) : (findBest party f).isSome = true := by
  cases party with
  | nil => exact absurd rfl h
  | cons c rest => simp [findBest]

theorem generateRecommendations_isSome (party : List Character) (encounter : Encounter)
    (chance : ℚ) (h : party ≠ []) :
    (generateRecommendations party encounter chance).isSome = true := by
  cases party with
  | nil => exact absurd rfl h
  | cons c rest =>
    unfold generateRecommendations findBest
    repeat' split
    all_goals simp

theorem applyAdvancedModifiers_bounds (baseChance : ℚ) (party : List Character)
    (encounter : Encounter) :
    5 ≤ applyAdvancedModifiers baseChance party encounter ∧
    applyAdvancedModifiers baseChance party encounter ≤ 95 := by
  unfold applyAdvancedModifiers
  constructor
  · exact le_jsRound (by push_cast; exact le_max_left _ _)
  · exact jsRound_le (by push_cast; exact max_le (by norm_num) (min_le_left _ _))

/-! ### Claims -/

/-- C1: for every non-empty party and encounter, the Strategy C pipeline
returns a result whose party_success_chance is an integer in [5, 95] and
whose individual success rates are integers in [15, 95]. -/
theorem strategyC_percent_bounds (party : List Character) (encounter : Encounter)
    (h : party ≠ []) :
    ∃ r, analyzePartyVsEncounter party encounter = some r ∧
      5 ≤ r.party_success_chance ∧ r.party_success_chance ≤ 95 ∧
      ∀ ir ∈ r.individual_success_rates, 15 ≤ ir.success_rate ∧ ir.success_rate ≤ 95 := by
  have hrec := generateRecommendations_isSome party encounter
    ((applyAdvancedModifiers (runBayesianAnalysis party encounter) party encounter : ℤ) : ℚ) h
  obtain ⟨recs, hrecs⟩ := Option.isSome_iff_exists.mp hrec
  refine ⟨⟨applyAdvancedModifiers (runBayesianAnalysis party encounter) party encounter,
    individualRates party encounter, getEncounterDifficulty encounter.event_type,
    recs⟩, ?_, ?_, ?_, ?_⟩
  · simp only [analyzePartyVsEncounter, getWeightedAnalysis, hrecs]
  · exact (applyAdvancedModifiers_bounds _ _ _).1
  · exact (applyAdvancedModifiers_bounds _ _ _).2
  · intro ir hir
    simp only [individualRates, List.mem_map] at hir
    obtain ⟨c, _, rfl⟩ := hir
    constructor
    · exact le_jsRound (by push_cast; exact le_min (by norm_num) (le_max_left _ _))
    · exact jsRound_le (by push_cast; exact min_le_left _ _)

/-- Witness for C1 at the spec's scenario-1 Barbarian vs Dragon Fight. -/
theorem strategyC_percent_bounds_witness :
    ([scenarioBarbarian] : List Character) ≠ [] ∧
    (∃ r, analyzePartyVsEncounter [scenarioBarbarian] dragonEncounter = some r ∧
      5 ≤ r.party_success_chance ∧ r.party_success_chance ≤ 95 ∧
      ∀ ir ∈ r.individual_success_rates, 15 ≤ ir.success_rate ∧ ir.success_rate ≤ 95) :=
  ⟨by simp, strategyC_percent_bounds [scenarioBarbarian] dragonEncounter (by simp)⟩

/-- C2: the Individual Rate Calculator returns exactly one entry per input
character, in input order, with success_rate equal to the spec's rounded
clamped weighted formula. -/
theorem individual_rates_formula (party : List Character) (encounter : Encounter) :
    individualRates party encounter =
      party.map (fun c =>
        { character := c.name
          success_rate := specSuccessRate c encounter.event_type
          recommended_action := getRecommendedAction c encounter.event_type }) := by
  have hclamp : ∀ x : ℚ, (15 : ℚ) ⊔ (95 ⊓ x) = 95 ⊓ (15 ⊔ x) := by
    intro x
    rw [max_min_distrib_left, max_eq_right (by norm_num : (15 : ℚ) ≤ 95)]
  simp only [individualRates, specSuccessRate, specClamp, specWeightedPower, charPower]
  refine List.map_congr_left fun c _ => ?_
  simp only [IndividualRate.mk.injEq, true_and, and_true, eq_self_iff_true]
  exact (congrArg jsRound (hclamp _)).symm

/-- C5: the Action Recommender equals the spec's fixed-priority decision
tree, and the scenario-1 Barbarian vs Dragon Fight gets "Power Attack". -/
theorem recommended_action_decision_tree :
    (∀ (c : Character) (eventType : String),
      getRecommendedAction c eventType = specRecommendedAction c eventType)
    ∧ getRecommendedAction scenarioBarbarian "Dragon Fight" = "Power Attack" := by
  constructor
  · intro c et
    rfl
  · norm_num [getRecommendedAction, scenarioBarbarian]

/-- C8: every event type outside the three known ones gets the all-1.0
stat weights, the 0.95 difficulty multiplier, the "Unknown" label, the
0.5/0.5 priors, and a narrator that never fails. -/
theorem unknown_event_defaults (et : String)
    (h1 : et ≠ "Dragon Fight") (h2 : et ≠ "Ancient Trap") (h3 : et ≠ "Mystic Puzzle") :
    getStatWeights et = ⟨1, 1, 1, 1, 1, 1⟩ ∧
    getDifficultyMultiplier et = 95 / 100 ∧
    getEncounterDifficulty et = "Unknown" ∧
    getSuccessPriors et = ⟨1 / 2, 1 / 2⟩ ∧
    ∀ (party : List Character) (enemy : Enemy) (chance : ℚ),
      (generateRecommendations party ⟨et, enemy⟩ chance).isSome = true := by
  refine ⟨?_, ?_, ?_, ?_, ?_⟩
  · simp [getStatWeights, h1, h2, h3]; norm_num
  · simp [getDifficultyMultiplier, h1, h2, h3]; norm_num
  · simp [getEncounterDifficulty, h1, h2, h3]
  · simp [getSuccessPriors, h1, h2, h3]; norm_num
  · intro party enemy chance
    simp [generateRecommendations, h1, h2, h3]

/-- Witness for C8 at the unknown event type "Goblin Ambush". -/
theorem unknown_event_defaults_witness :
    "Goblin Ambush" ≠ "Dragon Fight" ∧ "Goblin Ambush" ≠ "Ancient Trap" ∧
    "Goblin Ambush" ≠ "Mystic Puzzle" ∧
    getStatWeights "Goblin Ambush" = ⟨1, 1, 1, 1, 1, 1⟩ ∧
    getDifficultyMultiplier "Goblin Ambush" = 95 / 100 ∧
    getEncounterDifficulty "Goblin Ambush" = "Unknown" ∧
    getSuccessPriors "Goblin Ambush" = ⟨1 / 2, 1 / 2⟩ ∧
    (generateRecommendations [] ⟨"Goblin Ambush", ⟨"Goblin", 10⟩⟩ 50).isSome = true := by
  have h := unknown_event_defaults "Goblin Ambush" (by decide) (by decide) (by decide)
  exact ⟨by decide, by decide, by decide, h.1, h.2.1, h.2.2.1, h.2.2.2.1,
    h.2.2.2.2 [] ⟨"Goblin", 10⟩ 50⟩

/-- C10: the full Strategy C pipeline is deterministic: equal inputs give
equal analysis results. -/
theorem analysis_deterministic (p₁ p₂ : List Character) (e₁ e₂ : Encounter)
    (hp : p₁ = p₂) (he : e₁ = e₂) :
    analyzePartyVsEncounter p₁ e₁ = analyzePartyVsEncounter p₂ e₂ := by
  rw [hp, he]

/-- Witness for C10 at a concrete party and encounter. -/
theorem analysis_deterministic_witness :
    [scenarioBarbarian] = [scenarioBarbarian] ∧ dragonEncounter = dragonEncounter ∧
    analyzePartyVsEncounter [scenarioBarbarian] dragonEncounter =
      analyzePartyVsEncounter [scenarioBarbarian] dragonEncounter :=
  ⟨rfl, rfl, analysis_deterministic _ _ _ _ rfl rfl⟩

/-- Spec scenario 2's Mage (str 5, agi 10, mana 25, dex 10, wis 25, hp 5). -/
def supportMage : Character := ⟨"Lyra", "Mage", 5, 10, 5, some 25, some 10, some 25⟩

/-- C3: for the empty party against a Dragon Fight the analysis does not
return a sentinel: the narrator's `party.reduce` with no initial value
throws (modelled as `none`), so the whole analysis fails. -/
theorem empty_party_dragon_throws :
    analyzePartyVsEncounter [] dragonEncounter = none ∧
    generateRecommendations [] dragonEncounter 50 = none := by
  constructor
  · simp [analyzePartyVsEncounter, getWeightedAnalysis, generateRecommendations, findBest,
      dragonEncounter]
  · simp [generateRecommendations, findBest, dragonEncounter]

/-- C6: permuting a non-empty party leaves the Strategy A party chance and
the Strategy C Bayesian base unchanged, and permutes the individual rates
correspondingly. -/
theorem estimator_order_invariant (p₁ p₂ : List Character) (enc : Encounter)
    (hne : p₁ ≠ []) (hperm : p₁.Perm p₂) :
    StrategyA.partySuccessChance p₁ enc = StrategyA.partySuccessChance p₂ enc ∧
    (individualRates p₁ enc).Perm (individualRates p₂ enc) ∧
    runBayesianAnalysis p₁ enc = runBayesianAnalysis p₂ enc := by
  refine ⟨?_, ?_, ?_⟩
  · simp only [StrategyA.partySuccessChance]
    rw [hperm.length_eq, (hperm.map (charPower (getStatWeights enc.event_type))).sum_eq]
  · simp only [individualRates]
    exact hperm.map _
  · simp only [runBayesianAnalysis]
    rw [hperm.length_eq, (hperm.map _).prod_eq, (hperm.map _).prod_eq]

/-- Witness for C6 at a concrete two-member party and its swap. -/
theorem estimator_order_invariant_witness :
    ([scenarioBarbarian, supportMage] : List Character) ≠ [] ∧
    List.Perm [scenarioBarbarian, supportMage] [supportMage, scenarioBarbarian] ∧
    (StrategyA.partySuccessChance [scenarioBarbarian, supportMage] dragonEncounter =
      StrategyA.partySuccessChance [supportMage, scenarioBarbarian] dragonEncounter ∧
    (individualRates [scenarioBarbarian, supportMage] dragonEncounter).Perm
      (individualRates [supportMage, scenarioBarbarian] dragonEncounter) ∧
    runBayesianAnalysis [scenarioBarbarian, supportMage] dragonEncounter =
      runBayesianAnalysis [supportMage, scenarioBarbarian] dragonEncounter) := by
  have hperm : List.Perm [scenarioBarbarian, supportMage] [supportMage, scenarioBarbarian] :=
    List.Perm.swap supportMage scenarioBarbarian []
  exact ⟨by simp, hperm, estimator_order_invariant _ _ dragonEncounter (by simp) hperm⟩

/-- Filling each absent optional stat with an explicit 0. -/
def fillZero (c : Character) : Character :=
  ⟨c.name, c.type, c.strength, c.agility, c.health,
    some (c.mana.getD 0), some (c.dexterity.getD 0), some (c.wisdom.getD 0)⟩

theorem findBest_map (g : Character → Character) (f : Character → ℚ)
    (hf : ∀ c, f (g c) = f c) (party : List Character) :
    findBest (party.map g) f = (findBest party f).map g := by
  cases party with
  | nil => rfl
  | cons c rest =>
    simp only [List.map_cons, findBest, Option.map_some']
    rw [List.foldl_map]
    induction rest generalizing c with
    | nil => rfl
    | cons a t ih =>
      simp only [List.foldl_cons]
      have hstep : (if f (g c) < f (g a) then g a else g c) =
          g (if f c < f a then a else c) := by
        rw [hf, hf]
        exact (apply_ite g _ _ _).symm
      rw [hstep]
      exact ih _

theorem optStatPenalty_fill (v : Option ℚ) :
    optStatPenalty (some (v.getD 0)) = optStatPenalty v := by
  cases v with
  | none =>
    show statPenalty 0 = 0
    rw [statPenalty, if_neg (by norm_num)]
  | some x => rfl

theorem charPenalty_fillZero (c : Character) : charPenalty (fillZero c) = charPenalty c := by
  simp only [charPenalty, fillZero]
  rw [optStatPenalty_fill, optStatPenalty_fill, optStatPenalty_fill]

theorem generateRecommendations_fillZero (party : List Character) (enc : Encounter)
    (chance : ℚ) :
    generateRecommendations (party.map fillZero) enc chance =
      generateRecommendations party enc chance := by
  have hh : ∀ c : Character, (fun c : Character => c.health) (fillZero c) = c.health :=
    fun c => rfl
  have hs : ∀ c : Character, (fun c : Character => c.strength) (fillZero c) = c.strength :=
    fun c => rfl
  have hd : ∀ c : Character,
      (fun c : Character => c.dexterity.getD 0) (fillZero c) = c.dexterity.getD 0 :=
    fun c => rfl
  have hw : ∀ c : Character,
      (fun c : Character => c.wisdom.getD 0) (fillZero c) = c.wisdom.getD 0 :=
    fun c => rfl
  have hm : ∀ c : Character,
      (fun c : Character => c.mana.getD 0) (fillZero c) = c.mana.getD 0 :=
    fun c => rfl
  unfold generateRecommendations
  by_cases e1 : enc.event_type = "Dragon Fight"
  · simp only [e1, if_true, if_pos]
    rw [findBest_map fillZero (fun c : Character => c.health) hh,
      findBest_map fillZero (fun c : Character => c.strength) hs]
    cases findBest party fun c => c.health <;> cases findBest party fun c => c.strength <;>
      simp [fillZero]
  · by_cases e2 : enc.event_type = "Ancient Trap"
    · simp only [e1, e2, if_false, if_true, if_neg, if_pos]
      rw [findBest_map fillZero (fun c : Character => c.dexterity.getD 0) hd,
        findBest_map fillZero (fun c : Character => c.wisdom.getD 0) hw]
      cases findBest party fun c => c.dexterity.getD 0 <;>
        cases findBest party fun c => c.wisdom.getD 0 <;> simp [fillZero]
    · by_cases e3 : enc.event_type = "Mystic Puzzle"
      · simp only [e1, e2, e3, if_false, if_true, if_neg, if_pos]
        rw [findBest_map fillZero (fun c : Character => c.wisdom.getD 0) hw,
          findBest_map fillZero (fun c : Character => c.mana.getD 0) hm]
        cases findBest party fun c => c.wisdom.getD 0 <;>
          cases findBest party fun c => c.mana.getD 0 <;> simp [fillZero]
      · simp only [e1, e2, e3, if_false]

/-- C4 (amended): an absent optional stat behaves exactly like a present 0
in the Individual Rate Calculator, the Action Recommender, the synergy and
diminishing-returns modifiers, and the Recommendation Narrator — but not in
the Bayesian base, which skips absent stats (see the counterexample). -/
theorem missing_stat_zero_outside_bayes (party : List Character) (encounter : Encounter)
    (chance : ℚ) (c : Character) (eventType : String) :
    individualRates (party.map fillZero) encounter = individualRates party encounter ∧
    getRecommendedAction (fillZero c) eventType = getRecommendedAction c eventType ∧
    getSynergyMultiplier (party.map fillZero) encounter = getSynergyMultiplier party encounter ∧
    applyDiminishingReturns chance (party.map fillZero) = applyDiminishingReturns chance party ∧
    generateRecommendations (party.map fillZero) encounter chance =
      generateRecommendations party encounter chance := by
  refine ⟨?_, rfl, ?_, ?_, generateRecommendations_fillZero party encounter chance⟩
  · simp only [individualRates, List.map_map]
    exact List.map_congr_left fun c _ => rfl
  · simp only [getSynergyMultiplier, hasClass, List.any_map, List.all_map]
    rfl
  · simp only [applyDiminishingReturns, List.map_map]
    have hmap : party.map (charPenalty ∘ fillZero) = party.map charPenalty :=
      List.map_congr_left fun c _ => charPenalty_fillZero c
    rw [hmap]

theorem statPenalty_nonneg (v : ℚ) : 0 ≤ statPenalty v := by
  unfold statPenalty
  split
  · nlinarith [show (22 : ℚ) < v from by assumption]
  · exact le_refl 0

theorem optStatPenalty_nonneg (v : Option ℚ) : 0 ≤ optStatPenalty v := by
  cases v with
  | none => exact le_refl 0
  | some x => exact statPenalty_nonneg x

theorem charPenalty_nonneg (c : Character) : 0 ≤ charPenalty c := by
  unfold charPenalty
  have h1 := statPenalty_nonneg c.strength
  have h2 := statPenalty_nonneg c.agility
  have h3 := statPenalty_nonneg c.health
  have h4 := optStatPenalty_nonneg c.mana
  have h5 := optStatPenalty_nonneg c.dexterity
  have h6 := optStatPenalty_nonneg c.wisdom
  linarith

theorem totalPenalty_nonneg (party : List Character) : 0 ≤ (party.map charPenalty).sum :=
  List.sum_nonneg fun x hx => by
    obtain ⟨c, _, rfl⟩ := List.mem_map.mp hx
    exact charPenalty_nonneg c

theorem jsRound_intCast (n : ℤ) : jsRound (n : ℚ) = n := by
  rw [jsRound, Int.floor_eq_iff]
  constructor
  · linarith
  · linarith

/-- For an all-Barbarian-or-Bandit party facing a Mystic Puzzle the code's
synergy multiplier is exactly 0.7. -/
theorem synergy_all_brawn_puzzle (party : List Character) (enc : Encounter)
    (hall : ∀ c ∈ party, c.type = "Barbarian" ∨ c.type = "Bandit")
    (hev : enc.event_type = "Mystic Puzzle") :
    getSynergyMultiplier party enc = 7 / 10 := by
  have hmage : (party.any fun c => c.type == "Mage") = false := by
    rw [List.any_eq_false]
    intro c hc
    rcases hall c hc with h | h <;> simp [h]
  have hbb : (party.all fun c => c.type == "Barbarian" || c.type == "Bandit") = true := by
    rw [List.all_eq_true]
    intro c hc
    rcases hall c hc with h | h <;> simp [h]
  simp only [getSynergyMultiplier, hasClass, hev, hmage, hbb]
  simp
  norm_num

theorem synergy_eq_spec (party : List Character) (enc : Encounter) :
    getSynergyMultiplier party enc = specSynergyMultiplier party enc := by
  simp only [getSynergyMultiplier, specSynergyMultiplier, hasClass, List.any_eq_true,
    List.all_eq_true, beq_iff_eq, Bool.and_eq_true, Bool.or_eq_true, and_assoc]
  split_ifs <;> norm_num

/-- For an all-Barbarian-or-Bandit party facing a Mystic Puzzle, the final
modified chance stays strictly below any base above the 5-point floor. -/
theorem applyAdvanced_lowers (baseChance : ℚ) (party : List Character) (enc : Encounter)
    (hall : ∀ c ∈ party, c.type = "Barbarian" ∨ c.type = "Bandit")
    (hev : enc.event_type = "Mystic Puzzle") (hbase : 5 < baseChance) :
    ((applyAdvancedModifiers baseChance party enc : ℤ) : ℚ) < baseChance := by
  have hmult := synergy_all_brawn_puzzle party enc hall hev
  simp only [applyAdvancedModifiers, applyDiminishingReturns]
  rw [hmult, show (0.3 : ℚ) = 3 / 10 from by norm_num]
  set pen := (party.map charPenalty).sum with hpen
  have hpen0 : 0 ≤ pen := totalPenalty_nonneg party
  set t : ℚ := 1 - min (3 / 10) pen with ht
  have htmin : 0 ≤ min (3 / 10 : ℚ) pen := le_min (by norm_num) hpen0
  have ht1 : t ≤ 1 := by rw [ht]; linarith
  have ht2 : 7 / 10 ≤ t := by
    have := min_le_left (3 / 10 : ℚ) pen
    rw [ht]; linarith
  set m2 := baseChance * (7 / 10) * t with hm2def
  have hm2 : m2 ≤ 7 / 10 * baseChance := by
    rw [hm2def]
    nlinarith
  rcases le_or_lt m2 5 with hc | hc
  · rw [min_eq_right (le_trans hc (by norm_num)), max_eq_left hc,
      show (5 : ℚ) = ((5 : ℤ) : ℚ) from by norm_num, jsRound_intCast]
    push_cast
    linarith
  · rcases le_or_lt m2 95 with hc95 | hc95
    · rw [min_eq_right hc95, max_eq_right hc.le]
      have hfl : ((jsRound m2 : ℤ) : ℚ) ≤ m2 + 1 / 2 := by
        rw [jsRound]
        exact_mod_cast Int.floor_le (m2 + 1 / 2)
      linarith
    · rw [min_eq_left hc95.le, show max (5 : ℚ) 95 = 95 from by norm_num,
        show (95 : ℚ) = ((95 : ℤ) : ℚ) from by norm_num, jsRound_intCast]
      push_cast
      linarith

/-- C7 (amended): the synergy multiplier equals the spec's composition
rules; every non-empty all-Barbarian-or-Bandit party vs Mystic Puzzle gets
multiplier 0.7; and the final party chance drops strictly below the
unmodified base whenever that base is above the 5-point clamp floor. -/
theorem synergy_multiplier_rules :
    (∀ (party : List Character) (encounter : Encounter),
      getSynergyMultiplier party encounter = specSynergyMultiplier party encounter) ∧
    (∀ (party : List Character) (encounter : Encounter), party ≠ [] →
      (∀ c ∈ party, c.type = "Barbarian" ∨ c.type = "Bandit") →
      encounter.event_type = "Mystic Puzzle" →
      getSynergyMultiplier party encounter = 7 / 10) ∧
    (∀ (baseChance : ℚ) (party : List Character) (encounter : Encounter), party ≠ [] →
      (∀ c ∈ party, c.type = "Barbarian" ∨ c.type = "Bandit") →
      encounter.event_type = "Mystic Puzzle" → 5 < baseChance →
      ((applyAdvancedModifiers baseChance party encounter : ℤ) : ℚ) < baseChance) :=
  ⟨synergy_eq_spec, fun party enc _ hall hev => synergy_all_brawn_puzzle party enc hall hev,
    fun base party enc _ hall hev hbase => applyAdvanced_lowers base party enc hall hev hbase⟩

/-- Witness for C7 at a single-Barbarian party vs Mystic Puzzle with a
base of 50. -/
theorem synergy_multiplier_rules_witness :
    ([scenarioBarbarian] : List Character) ≠ [] ∧
    (∀ c ∈ ([scenarioBarbarian] : List Character),
      c.type = "Barbarian" ∨ c.type = "Bandit") ∧
    puzzleEncounter.event_type = "Mystic Puzzle" ∧ (5 : ℚ) < 50 ∧
    getSynergyMultiplier [scenarioBarbarian] puzzleEncounter = 7 / 10 ∧
    ((applyAdvancedModifiers 50 [scenarioBarbarian] puzzleEncounter : ℤ) : ℚ) < 50 := by
  have hne : ([scenarioBarbarian] : List Character) ≠ [] := by simp
  have hall : ∀ c ∈ ([scenarioBarbarian] : List Character),
      c.type = "Barbarian" ∨ c.type = "Bandit" := by
    intro c hc
    simp only [List.mem_singleton] at hc
    subst hc
    left
    rfl
  exact ⟨hne, hall, rfl, by norm_num,
    synergy_multiplier_rules.2.1 [scenarioBarbarian] puzzleEncounter hne hall rfl,
    synergy_multiplier_rules.2.2 50 [scenarioBarbarian] puzzleEncounter hne hall rfl
      (by norm_num)⟩

/-- C7 counterexample: a single all-low-stat Barbarian vs Mystic Puzzle has
Bayesian base below the 5-point floor, so the final chance (clamped up to
5) is strictly ABOVE the unmodified base even though the multiplier is
0.7 — the claimed unconditional lowering fails. -/
theorem synergy_floor_counterexample :
    (∀ c ∈ ([weakBarbarian] : List Character), c.type = "Barbarian" ∨ c.type = "Bandit") ∧
    getSynergyMultiplier [weakBarbarian] puzzleEncounter = 7 / 10 ∧
    runBayesianAnalysis [weakBarbarian] puzzleEncounter <
      ((applyAdvancedModifiers (runBayesianAnalysis [weakBarbarian] puzzleEncounter)
        [weakBarbarian] puzzleEncounter : ℤ) : ℚ) := by
  have hall : ∀ c ∈ ([weakBarbarian] : List Character),
      c.type = "Barbarian" ∨ c.type = "Bandit" := by
    intro c hc
    simp only [List.mem_singleton] at hc
    subst hc
    left
    rfl
  refine ⟨hall, synergy_all_brawn_puzzle _ _ hall rfl, ?_⟩
  simp [runBayesianAnalysis, applyAdvancedModifiers, applyDiminishingReturns,
    getSynergyMultiplier, hasClass, charPenalty, statPenalty, optStatPenalty,
    getSuccessPriors, getLikelihoods, charFactor, statFactor, optStatFactor,
    getStatCategory, defaultLikelihoods, defaultStatLikelihood, BucketProbs.get,
    puzzleEncounter, weakBarbarian, jsRound]
  norm_num [min_def, max_def]

/-- C4 counterexample: a Mage with mana absent and the same Mage with
mana = 0 get different Naive Bayes base probabilities vs a Dragon Fight. -/
theorem bayes_missing_stat_counterexample :
    mageZeroMana = { mageNoMana with mana := some 0 } ∧
    runBayesianAnalysis [mageNoMana] dragonEncounter ≠
      runBayesianAnalysis [mageZeroMana] dragonEncounter := by
  refine ⟨rfl, ?_⟩
  simp [runBayesianAnalysis, getSuccessPriors, getLikelihoods, charFactor, statFactor,
    optStatFactor, getStatCategory, defaultLikelihoods, defaultStatLikelihood, BucketProbs.get,
    dragonEncounter, mageNoMana, mageZeroMana]
  norm_num

/-- The `party.reduce` of `findBest` picks a member with maximal valuation,
the earliest one on ties: the result splits the list into a strictly-worse
prefix, the chosen member, and a suffix. -/
theorem foldlBest_spec (f : Character → ℚ) :
    ∀ (l : List Character) (init : Character),
      (l.foldl (fun best c => if f best < f c then c else best) init) ∈ init :: l ∧
      (∀ c ∈ init :: l,
        f c ≤ f (l.foldl (fun best c => if f best < f c then c else best) init)) ∧
      ∃ pre suf,
        init :: l = pre ++ (l.foldl (fun best c => if f best < f c then c else best) init) :: suf ∧
        ∀ c ∈ pre, f c < f (l.foldl (fun best c => if f best < f c then c else best) init) := by
  intro l
  induction l with
  | nil =>
    intro init
    exact ⟨by simp, by simp, [], [], rfl, by simp⟩
  | cons a t ih =>
    intro init
    simp only [List.foldl_cons]
    by_cases hc : f init < f a
    · rw [if_pos hc]
      obtain ⟨hmem, hbound, pre, suf, hdec, hpre⟩ := ih a
      have hab : f a ≤ f (t.foldl (fun best c => if f best < f c then c else best) a) :=
        hbound a (List.mem_cons_self a t)
      refine ⟨List.mem_cons_of_mem init hmem, ?_, init :: pre, suf, ?_, ?_⟩
      · intro c hcmem
        rcases List.mem_cons.mp hcmem with rfl | hcmem2
        · exact le_of_lt (lt_of_lt_of_le hc hab)
        · exact hbound c hcmem2
      · rw [List.cons_append, ← hdec]
      · intro c hcmem
        rcases List.mem_cons.mp hcmem with rfl | hcmem2
        · exact lt_of_lt_of_le hc hab
        · exact hpre c hcmem2
    · rw [if_neg hc]
      obtain ⟨hmem, hbound, pre, suf, hdec, hpre⟩ := ih init
      have hai : f a ≤ f init := le_of_not_lt hc
      have hib : f init ≤ f (t.foldl (fun best c => if f best < f c then c else best) init) :=
        hbound init (List.mem_cons_self init t)
      refine ⟨?_, ?_, ?_⟩
      · rcases List.mem_cons.mp hmem with heq | h2
        · rw [heq]
          exact List.mem_cons_self _ _
        · exact List.mem_cons_of_mem init (List.mem_cons_of_mem a h2)
      · intro c hcmem
        rcases List.mem_cons.mp hcmem with rfl | hcmem2
        · exact hib
        · rcases List.mem_cons.mp hcmem2 with rfl | hcmem3
          · exact le_trans hai hib
          · exact hbound c (List.mem_cons_of_mem init hcmem3)
      · cases pre with
        | nil =>
          simp only [List.nil_append] at hdec
          injection hdec with hbinit hsuf
          refine ⟨[], a :: t, ?_, by simp⟩
          rw [← hbinit]
          simp
        | cons p ps =>
          simp only [List.cons_append] at hdec
          injection hdec with hpinit ht
          refine ⟨init :: a :: ps, suf, ?_, ?_⟩
          · rw [List.cons_append, List.cons_append, ← ht]
          · intro c hcmem
            have hinitlt : f init <
                f (t.foldl (fun best c => if f best < f c then c else best) init) := by
              have := hpre p (List.mem_cons_self p ps)
              rwa [← hpinit] at this
            rcases List.mem_cons.mp hcmem with rfl | hcmem2
            · exact hinitlt
            · rcases List.mem_cons.mp hcmem2 with rfl | hcmem3
              · exact lt_of_le_of_lt hai hinitlt
              · exact hpre c (List.mem_cons_of_mem p hcmem3)

/-- C9: for a non-empty party the narrator returns exactly one tone
sentence chosen by the three-tier threshold, followed by the
encounter-specific sentences, and every character it names is the
first-occurrence argmax over the party for the relevant stat. -/
theorem narrator_structure (party : List Character) (encounter : Encounter) (chance : ℚ)
    (h : party ≠ []) :
    generateRecommendations party encounter chance =
      some (toneSentence chance :: narratorTail party encounter) ∧
    ∀ (f : Character → ℚ) (b : Character), findBest party f = some b →
      b ∈ party ∧ (∀ c ∈ party, f c ≤ f b) ∧
      ∃ pre suf, party = pre ++ b :: suf ∧ ∀ c ∈ pre, f c < f b := by
  obtain ⟨c0, rest, rfl⟩ : ∃ c0 rest, party = c0 :: rest := by
    cases party with
    | nil => exact absurd rfl h
    | cons c0 rest => exact ⟨c0, rest, rfl⟩
  constructor
  · by_cases e1 : encounter.event_type = "Dragon Fight"
    · simp [generateRecommendations, narratorTail, toneSentence, findBest, e1]
    · by_cases e2 : encounter.event_type = "Ancient Trap"
      · simp [generateRecommendations, narratorTail, toneSentence, findBest, e1, e2]
      · by_cases e3 : encounter.event_type = "Mystic Puzzle"
        · simp [generateRecommendations, narratorTail, toneSentence, findBest, e1, e2, e3]
        · simp [generateRecommendations, narratorTail, toneSentence, findBest, e1, e2, e3]
  · intro f b hfb
    simp only [findBest, Option.some.injEq] at hfb
    obtain ⟨hmem, hbound, pre, suf, hdec, hpre⟩ := foldlBest_spec f rest c0
    rw [hfb] at hmem hbound hdec hpre
    exact ⟨hmem, hbound, pre, suf, hdec, hpre⟩

/-- Witness for C9 at a concrete two-member party vs Dragon Fight. -/
theorem narrator_structure_witness :
    ([scenarioBarbarian, supportMage] : List Character) ≠ [] ∧
    (generateRecommendations [scenarioBarbarian, supportMage] dragonEncounter 50 =
      some (toneSentence 50 :: narratorTail [scenarioBarbarian, supportMage] dragonEncounter) ∧
    ∀ (f : Character → ℚ) (b : Character),
      findBest [scenarioBarbarian, supportMage] f = some b →
      b ∈ [scenarioBarbarian, supportMage] ∧
      (∀ c ∈ ([scenarioBarbarian, supportMage] : List Character), f c ≤ f b) ∧
      ∃ pre suf, ([scenarioBarbarian, supportMage] : List Character) = pre ++ b :: suf ∧
        ∀ c ∈ pre, f c < f b) :=
  ⟨by simp, narrator_structure [scenarioBarbarian, supportMage] dragonEncounter 50 (by simp)⟩

end HeroSquad
